import Mathlib

/-!
Verification development for the debugpy-attacher extension core
(`src/pythonProcessService.ts`, `src/statusBarManager.ts`, plus the
port-lock manager specified in the design document).

The TypeScript code is shallowly embedded: each parsing or bookkeeping
routine becomes a total Lean function over strings and lists, external
effects (subprocess execution, the host debug-launch call, the lock
filesystem) become explicit inputs describing their outcomes.
-/

namespace DebugpyAttacher

/-- Provenance tag attached to merged discovery results
(`source?: 'ps' | 'lsof' | 'launch.json'` in `pythonProcessService.ts`). -/
inductive Source where
  | ps
  | lsof
  | launchJson
deriving DecidableEq, Repr

/-- The `PythonProcess` interface of `pythonProcessService.ts`. -/
structure PythonProcess where
  pid : String
  port : String
  user : String
  isCurrentUser : Bool
  source : Option Source := none
  command : Option String := none
deriving DecidableEq, Repr

/-! ## String utilities mirroring the JavaScript operations used by the code -/

/-- JavaScript `\s`-style whitespace test (the inputs parsed by the code only
contain spaces and tabs; `Char.isWhitespace` covers the same characters on
them). -/
def isWsChar (c : Char) : Bool := c.isWhitespace

/-- Accumulator pass of `splitWs`: `cur` is the current token, reversed. -/
def wsTokensAux : List Char → List Char → List String
  | [], cur => if cur.isEmpty then [] else [String.mk cur.reverse]
  | c :: t, cur =>
    if isWsChar c then
      if cur.isEmpty then wsTokensAux t []
      else String.mk cur.reverse :: wsTokensAux t []
    else wsTokensAux t (c :: cur)

/-- `line.trim().split(/\s+/)` — the nonempty whitespace-separated tokens. -/
def splitWs (s : String) : List String :=
  wsTokensAux s.data []

/-- Accumulator pass of `splitOnChar`. -/
def splitOnCharAux (sep : Char) : List Char → List Char → List String
  | [], cur => [String.mk cur.reverse]
  | c :: t, cur =>
    if c = sep then String.mk cur.reverse :: splitOnCharAux sep t []
    else splitOnCharAux sep t (c :: cur)

/-- JavaScript `s.split(sep)` for a single-character separator: empty
fields are kept, and the empty string splits to one empty field. -/
def splitOnChar (sep : Char) (s : String) : List String :=
  splitOnCharAux sep s.data []

/-- JavaScript `s.trim()` (on `\s`-style whitespace). -/
def strTrim (s : String) : String :=
  String.mk (((s.data.dropWhile isWsChar).reverse.dropWhile isWsChar).reverse)

/-- ASCII lower-casing, JavaScript `s.toLowerCase()` on the ASCII usernames
compared by the code. -/
def strToLower (s : String) : String :=
  String.mk (s.data.map Char.toLower)

/-- JavaScript `parts.join(' ')` as a character list. -/
def joinSpaceChars : List String → List Char
  | [] => []
  | [s] => s.data
  | s :: rest => s.data ++ ' ' :: joinSpaceChars rest

/-- JavaScript `parts.join(' ')`. -/
def joinSpace (l : List String) : String :=
  String.mk (joinSpaceChars l)

/-- `pat` occurs as a contiguous sublist of `s` (JavaScript `String.includes`). -/
def listHasInfix (pat : List Char) : List Char → Bool
  | [] => pat.isEmpty
  | c :: t => pat.isPrefixOf (c :: t) || listHasInfix pat t

/-- JavaScript `s.includes(pat)`. -/
def strIncludes (s pat : String) : Bool :=
  listHasInfix pat.data s.data

/-- JavaScript `\w` word-character class (`[A-Za-z0-9_]`). -/
def isWordChar (c : Char) : Bool := c.isAlphanum || c = '_'

/-- Leftmost match of the regex `FLAG\s+(\d+)` against a character list:
scan for an occurrence of `flag` followed by one or more whitespace
characters and then one or more digits; return the maximal digit run. -/
def matchFlagPort (flag : List Char) : List Char → Option String
  | [] => none
  | c :: t =>
    if flag.isPrefixOf (c :: t) then
      let rest := (c :: t).drop flag.length
      let ws := rest.takeWhile isWsChar
      let ds := (rest.dropWhile isWsChar).takeWhile Char.isDigit
      if ws ≠ [] ∧ ds ≠ [] then some (String.mk ds) else matchFlagPort flag t
    else matchFlagPort flag t

/-- Leftmost match of the regex `:(\d{4,5})`: a colon followed by at least
four digits; the (greedy) capture takes at most five of them. -/
def matchColonPort : List Char → Option String
  | [] => none
  | c :: t =>
    if c = ':' then
      let ds := t.takeWhile Char.isDigit
      if 4 ≤ ds.length then some (String.mk (ds.take 5)) else matchColonPort t
    else matchColonPort t

/-- One position of the regex `\b(5\d{3}|6\d{3}|7\d{3}|8\d{3}|9\d{3})\b`:
`prev` is the character preceding the current position (none at the start
of the string). -/
def bare4Here (prev : Option Char) : List Char → Option String
  | [] => none
  | c :: t =>
    if (match prev with
        | none => true
        | some p => !isWordChar p)
       && ('5' ≤ c && c ≤ '9')
       && ((t.take 3).length = 3 && (t.take 3).all Char.isDigit)
       && (match t.drop 3 with
           | [] => true
           | d :: _ => !isWordChar d) then
      some (String.mk (c :: t.take 3))
    else bare4Here (some c) t

/-- Leftmost match of the regex `\b(5\d{3}|...|9\d{3})\b`. -/
def matchBare4 (cs : List Char) : Option String :=
  bare4Here none cs

/-! ## `PythonProcessService` parsing routines -/

/-- `PythonProcessService.extractPort`: four pattern-matchers tried in a
fixed order, first match wins. -/
def extractPort (commandLine : String) : Option String :=
  match matchFlagPort ("--port".data) commandLine.data with
  | some p => some p
  | none =>
    match matchFlagPort ("--listen".data) commandLine.data with
    | some p => some p
    | none =>
      match matchColonPort commandLine.data with
      | some p => some p
      | none => matchBare4 commandLine.data

/-- `PythonProcessService.parseUnixProcess`: whitespace-split into
user, pid and the rest re-joined as the command string; a port comes only
from a `--port <digits>` flag, and a port already seen this scan is dropped.
Returns the parse result together with the updated seen-port set. -/
def parseUnixProcess (currentUser : String) (seenPorts : List String)
    (line : String) : Option PythonProcess × List String :=
  let parts := splitWs line
  if parts.length < 3 then (none, seenPorts)
  else
    let user := parts.getD 0 ""
    let pid := parts.getD 1 ""
    let command := joinSpace (parts.drop 2)
    match matchFlagPort ("--port".data) command.data with
    | some port =>
      if port ∈ seenPorts then (none, seenPorts)
      else (some { pid := pid, port := port, user := user,
                   isCurrentUser := user = currentUser }, port :: seenPorts)
    | none => (none, seenPorts)

/-- `PythonProcessService.parseWindowsProcess`: comma-split CSV row with
owner (possibly `DOMAIN\user`), pid and command line; the port comes from
`extractPort` and the pid must be all digits. -/
def parseWindowsProcess (currentUser : String) (seenPorts : List String)
    (line : String) : Option PythonProcess × List String :=
  let parts := splitOnChar ',' line
  if 3 ≤ parts.length ∧ parts.getD 2 "" ≠ "" ∧
      strIncludes (parts.getD 2 "") ("debugpy") then
    let commandLine := parts.getD 2 ""
    let ownerWithDomain := strTrim (parts.getD 0 "")
    let user := if strIncludes ownerWithDomain ("\\") then
        (splitOnChar '\\' ownerWithDomain).getD 1 ""
      else ownerWithDomain
    let pid := strTrim (parts.getD 1 "")
    match extractPort commandLine with
    | some port =>
      if (pid ≠ "" ∧ pid.data.all Char.isDigit) ∧ port ∉ seenPorts then
        (some { pid := pid, port := port, user := user,
                isCurrentUser := strToLower user = strToLower currentUser },
         port :: seenPorts)
      else (none, seenPorts)
    | none => (none, seenPorts)
  else (none, seenPorts)

/-- `PythonProcessService.parseProcessLine`: platform dispatch. -/
def parseProcessLine (currentUser : String) (isWin : Bool)
    (seenPorts : List String) (line : String) :
    Option PythonProcess × List String :=
  if isWin then parseWindowsProcess currentUser seenPorts line
  else parseUnixProcess currentUser seenPorts line

/-- Outcome of one `exec` subprocess invocation as observed by its callback:
`err` is true when the callback received an error (command not found,
non-zero exit, timeout, ...), `output` is the captured stdout. -/
structure ExecResult where
  err : Bool
  output : String
deriving DecidableEq, Repr

/-- Fold step of the line loop in `findProcessesViaPsCommand`. -/
def psScanStep (currentUser : String) (isWin : Bool)
    (acc : List PythonProcess × List String) (line : String) :
    List PythonProcess × List String :=
  match parseProcessLine currentUser isWin acc.2 line with
  | (some p, seen) => (acc.1 ++ [p], seen)
  | (none, seen) => (acc.1, seen)

/-- `PythonProcessService.findProcessesViaPsCommand`, as a function of the
`exec` outcome: every failure (error, empty or whitespace-only output)
resolves to the empty list, otherwise each nonempty line is parsed. -/
def psScan (currentUser : String) (isWin : Bool) (res : ExecResult) :
    List PythonProcess :=
  if res.err = true ∨ strTrim res.output = "" then []
  else
    (((splitOnChar '\n' res.output).filter (fun l => strTrim l ≠ "")).foldl
      (psScanStep currentUser isWin) ([], [])).1

/-- `PythonProcessService.parseLsofLine`: whitespace-split `lsof` row; the
first three fields are command, pid and user, and the returned port is the
probed port handed in, not anything parsed from the row. -/
def parseLsofLine (currentUser : String) (line : String) (port : String) :
    Option PythonProcess :=
  let parts := splitWs line
  if 3 ≤ parts.length then
    some { pid := parts.getD 1 "", port := port, user := parts.getD 2 "",
           isCurrentUser := parts.getD 2 "" = currentUser,
           command := some (parts.getD 0 "") }
  else none

/-- The line loop of `checkPortWithLsof` (indices `1..` of the filtered
lines): take the first `LISTEN`-marked line that parses. -/
def firstListenLine (currentUser : String) (port : String) :
    List String → Option PythonProcess
  | [] => none
  | l :: rest =>
    if strIncludes l ("LISTEN") then
      match parseLsofLine currentUser l port with
      | some p => some p
      | none => firstListenLine currentUser port rest
    else firstListenLine currentUser port rest

/-- `PythonProcessService.checkPortWithLsof`, as a function of the `exec`
outcome of `lsof -i :port -P -n`: failures resolve to `none`, otherwise the
header line is skipped and the first listening row wins. -/
def checkPortWithLsof (currentUser : String) (port : String)
    (res : ExecResult) : Option PythonProcess :=
  if res.err = true ∨ strTrim res.output = "" then none
  else
    firstListenLine currentUser port
      (((splitOnChar '\n' res.output).filter (fun l => strTrim l ≠ "")).drop 1)

/-! ## `findPythonProcesses` merge -/

/-- Tag a process with its discovery provenance (`{ ...process, source }`). -/
def tagWith (src : Source) (p : PythonProcess) : PythonProcess :=
  { p with source := some src }

/-- One iteration of the merge loops of `findPythonProcesses`: skip the
process if its port was already seen, otherwise append it tagged with its
provenance and record the port. -/
def mergeStep (src : Source) (acc : List PythonProcess × List String)
    (p : PythonProcess) : List PythonProcess × List String :=
  if p.port ∈ acc.2 then acc
  else (acc.1 ++ [tagWith src p], p.port :: acc.2)

/-- `PythonProcessService.findPythonProcesses` merge phase: the scanner
(`ps`) results are folded in first, then the probe (`lsof`) results, with a
single seen-port set shared by both loops. -/
def mergeProcesses (psProcs lsofProcs : List PythonProcess) :
    List PythonProcess :=
  (lsofProcs.foldl (mergeStep .lsof)
    (psProcs.foldl (mergeStep .ps) ([], []))).1

/-! ## `StatusBarManager` auto-attach engine -/

/-- Outcome of the host debug-launch call `vscode.debug.startDebugging`:
the promise resolves `true`, resolves `false`, or rejects with an error. -/
inductive LaunchOutcome where
  | success
  | failed
  | rejected
deriving DecidableEq, Repr

/-- The external outcomes observed by one `silentAttach` call:
the port-lock acquisition result, whether a debug session is active
(`debugSessionActive || vscode.debug.activeDebugSession`), and the
debug-launch outcome. -/
structure AttachEnv where
  lockAcquired : Bool
  sessionActive : Bool
  launch : LaunchOutcome
deriving DecidableEq, Repr

/-- What `silentAttach` has done by the time its promise resolves:
its boolean result, the `connectingPorts` set, whether the port lock is
still held, and whether a grace-delay release timer has been scheduled. -/
structure AttachOutcome where
  success : Bool
  connectingPorts : List String
  lockHeld : Bool
  graceReleaseScheduled : Bool
deriving DecidableEq, Repr

/-- JavaScript `Set.add` on a list used as a set. -/
def setInsert (x : String) (l : List String) : List String :=
  if x ∈ l then l else x :: l

/-- JavaScript `Set.delete` on a list used as a set. -/
def setErase (x : String) (l : List String) : List String :=
  l.filter (fun y => y ≠ x)

/-- `StatusBarManager.silentAttach`: add the port to `connectingPorts`;
fail if the lock is not acquired (nothing to release) or a session is
active (release the lock); otherwise launch and, on resolved `true`, keep
the lock with a deferred 5-second release, else release it immediately.
Every path removes the port from `connectingPorts` before resolving. -/
def silentAttach (env : AttachEnv) (port : String) (connecting : List String) :
    AttachOutcome :=
  let c1 := setInsert port connecting
  if env.lockAcquired = false then
    { success := false, connectingPorts := setErase port c1,
      lockHeld := false, graceReleaseScheduled := false }
  else if env.sessionActive = true then
    { success := false, connectingPorts := setErase port c1,
      lockHeld := false, graceReleaseScheduled := false }
  else
    match env.launch with
    | .success =>
      { success := true, connectingPorts := setErase port c1,
        lockHeld := true, graceReleaseScheduled := true }
    | .failed =>
      { success := false, connectingPorts := setErase port c1,
        lockHeld := false, graceReleaseScheduled := false }
    | .rejected =>
      { success := false, connectingPorts := setErase port c1,
        lockHeld := false, graceReleaseScheduled := false }

/-- The in-memory bookkeeping of `StatusBarManager` relevant to a tick. -/
structure EngineState where
  attachedPorts : List String
  connectingPorts : List String
  isAutoAttaching : Bool
  debugSessionActive : Bool
deriving DecidableEq, Repr

/-- The external world one `tryAutoAttach` tick observes: the host's
active-session flag, the discovery result, the hide-other-users setting,
and per-port lock and launch outcomes. -/
structure TickEnv where
  hostSessionActive : Bool
  discovered : List PythonProcess
  hideOthers : Bool
  lockFree : String → Bool
  launch : String → LaunchOutcome

/-- How the per-tick process loop ended: list exhausted, aborted because a
session appeared, or stopped by a successful attach. -/
inductive LoopExit where
  | exhausted
  | sessionAbort
  | attachedStop
deriving DecidableEq, Repr

/-- Result of the per-tick process loop: the updated bookkeeping, the ports
on which `silentAttach` was dispatched (in order), and how the loop ended. -/
structure LoopResult where
  attachedPorts : List String
  connectingPorts : List String
  dispatched : List String
  exit : LoopExit
deriving Repr

/-- The `for (const process of processes)` loop of
`StatusBarManager.tryAutoAttach`: skip attached or connecting ports,
abort if a session is detected, otherwise dispatch `silentAttach` and stop
the loop on the first success. -/
def attachLoop (dsa : Bool) (env : TickEnv) (attached connecting : List String) :
    List PythonProcess → LoopResult
  | [] => ⟨attached, connecting, [], .exhausted⟩
  | p :: rest =>
    if p.port ∈ attached then attachLoop dsa env attached connecting rest
    else if p.port ∈ connecting then attachLoop dsa env attached connecting rest
    else if dsa || env.hostSessionActive then
      ⟨attached, connecting, [], .sessionAbort⟩
    else
      let out := silentAttach
        ⟨env.lockFree p.port, dsa || env.hostSessionActive, env.launch p.port⟩
        p.port connecting
      if out.success then
        ⟨p.port :: attached, out.connectingPorts, [p.port], .attachedStop⟩
      else
        let r := attachLoop dsa env attached out.connectingPorts rest
        ⟨r.attachedPorts, r.connectingPorts, p.port :: r.dispatched, r.exit⟩

/-- Result of one auto-attach tick: the bookkeeping afterwards, how many
`findPythonProcesses` discovery calls were made, and the dispatched ports. -/
structure TickResult where
  attachedPorts : List String
  connectingPorts : List String
  isAutoAttaching : Bool
  discoveryCalls : Nat
  dispatched : List String
deriving Repr

/-- `StatusBarManager.tryAutoAttach`: return immediately (no discovery)
when a session is active; otherwise discover (one call), filter by user if
configured, prune stale attached ports, run the loop, and on a successful
attach run `stopAutoAttach()` (which clears the bookkeeping). -/
def tryAutoAttach (st : EngineState) (env : TickEnv) : TickResult :=
  if st.debugSessionActive || env.hostSessionActive then
    ⟨st.attachedPorts, st.connectingPorts, st.isAutoAttaching, 0, []⟩
  else
    let procs := if env.hideOthers then
        env.discovered.filter (fun p => p.isCurrentUser) else env.discovered
    let valid := procs.map (fun p => p.port)
    let att0 := st.attachedPorts.filter (fun q => q ∈ valid)
    let r := attachLoop st.debugSessionActive env att0 st.connectingPorts procs
    match r.exit with
    | .attachedStop => ⟨[], [], false, 1, r.dispatched⟩
    | _ => ⟨r.attachedPorts, r.connectingPorts, st.isAutoAttaching, 1, r.dispatched⟩

/-- The auto-attach interval callback installed by
`StatusBarManager.startAutoAttach`: if a debug session became active, run
`stopAutoAttach()` and return without calling `tryAutoAttach`. -/
def autoAttachTimerTick (st : EngineState) (env : TickEnv) : TickResult :=
  if st.debugSessionActive then ⟨[], [], false, 0, []⟩
  else tryAutoAttach st env

/-! ## PortLockManager

Modelled from the spec: `portLockManager.ts` is imported by `extension.ts`
and `statusBarManager.ts` but its source is not part of the repository
snapshot, so `tryAcquirePortLock` is modelled from the design document
(per-port lock entries with a creation timestamp, a process-wide
user-activity heartbeat, and a staleness rule saying the age exceeds a fixed
threshold AND there is no recent activity), with the qualitative constants fixed
at 60 seconds each, consistent with the documented scenarios (5-second-old
lock not reclaimable; 90-second-old lock with no heartbeat for 60 seconds
reclaimable). -/

/-- Modelled from the spec: the lock directory contents (port / creation
timestamp entries, milliseconds) plus the most recent user-activity
heartbeat observed by the acquisition logic. -/
structure LockState where
  entries : List (String × Nat)
  lastActivity : Nat
deriving DecidableEq, Repr

/-- Modelled from the spec: the lock staleness age threshold ("on the
order of tens of seconds"), fixed at 60 seconds. -/
def lockStaleThresholdMs : Nat := 60000

/-- Modelled from the spec: the activity-heartbeat recency window, fixed
at 60 seconds. -/
def activityRecencyMs : Nat := 60000

/-- Look up the creation timestamp of a port's lock entry. -/
def lookupCreated (port : String) : List (String × Nat) → Option Nat
  | [] => none
  | e :: rest => if e.1 = port then some e.2 else lookupCreated port rest

/-- Modelled from the spec: a lock is stale when its age exceeds the
threshold and there has been no recent activity heartbeat. -/
def lockIsStale (now createdAt lastActivity : Nat) : Bool :=
  decide (lockStaleThresholdMs < now - createdAt) &&
    decide (activityRecencyMs < now - lastActivity)

/-- Modelled from the spec: `tryAcquire(port)` — atomic create-if-absent;
on conflict the existing entry is force-reclaimed (replaced by a fresh
entry) exactly when it is stale, otherwise acquisition fails with the
state unchanged. -/
def tryAcquirePortLock (now : Nat) (port : String) (st : LockState) :
    Bool × LockState :=
  match lookupCreated port st.entries with
  | none => (true, { st with entries := (port, now) :: st.entries })
  | some created =>
    if lockIsStale now created st.lastActivity then
      (true, { st with entries :=
        (port, now) :: st.entries.filter (fun e => e.1 ≠ port) })
    else (false, st)

/-! ## Concrete inputs used by the witness theorems -/

/-- A scanner-reported process on port 5678. -/
def pScan5678 : PythonProcess :=
  { pid := "1", port := "5678", user := "alice", isCurrentUser := true }

/-- A probe-reported process on the same port 5678. -/
def pProbe5678 : PythonProcess :=
  { pid := "2", port := "5678", user := "root", isCurrentUser := false }

/-- A probe-reported process on port 5679. -/
def pProbe5679 : PythonProcess :=
  { pid := "3", port := "5679", user := "root", isCurrentUser := false }

/-- First of two newly discovered current-user processes in one tick. -/
def pTick5678 : PythonProcess :=
  { pid := "11", port := "5678", user := "alice", isCurrentUser := true }

/-- Second of two newly discovered current-user processes in one tick. -/
def pTick5679 : PythonProcess :=
  { pid := "12", port := "5679", user := "alice", isCurrentUser := true }

/-- Engine state before the two-port tick: auto-attach running, no debug
session, empty bookkeeping. -/
def tickStateW : EngineState := ⟨[], [], true, false⟩

/-- Tick environment with two new unlocked current-user ports where every
launch succeeds. -/
def tickEnvW : TickEnv :=
  ⟨false, [pTick5678, pTick5679], false, fun _ => true, fun _ => .success⟩

/-- Engine state with an active debug session, for the gating witness. -/
def gatedStateW : EngineState := ⟨["5678"], [], true, true⟩

/-- Tick environment for the gating witness. -/
def gatedEnvW : TickEnv :=
  ⟨false, [pTick5678], false, fun _ => true, fun _ => .success⟩

/-- An `lsof -i :9000 -P -n` style output: header, a non-listening row, and
two listening rows; the first listening row belongs to a docker proxy and
mentions no port 9000 anywhere. -/
def lsofOutputW : String :=
  "COMMAND PID USER FD TYPE DEVICE SIZE/OFF NODE NAME\npython 999 bob 3u IPv4 1 0t0 TCP 127.0.0.1:555 (ESTABLISHED)\ndocker-proxy 3310 root 4u IPv6 2 0t0 TCP *:32768 (LISTEN)\npython 7777 carol 5u IPv4 3 0t0 TCP *:4000 (LISTEN)"

/-- The candidate the probe yields for `lsofOutputW` on hinted port 9000. -/
def probeCandidateW : PythonProcess :=
  { pid := "3310", port := "9000", user := "root", isCurrentUser := false,
    command := some ("docker-proxy") }

/-- Lock state holding a 5-second-old entry for port 5678 with a recent
(1-second-old) activity heartbeat, at observation time 100000 ms. -/
def freshLockStateW : LockState := ⟨[("5678", 95000)], 99000⟩

/-- Lock state holding a 90-second-old entry for port 5678 with the last
activity heartbeat 90 seconds ago, at observation time 100000 ms. -/
def staleLockStateW : LockState := ⟨[("5678", 10000)], 10000⟩

/-! ## Helper lemmas about the merge fold -/

/-- Invariant of a merge-fold accumulator: the collected ports are
pairwise distinct and the seen-port set holds exactly those ports. -/
def MergeInv (acc : List PythonProcess × List String) : Prop :=
  (acc.1.map PythonProcess.port).Nodup ∧
    ∀ s, s ∈ acc.2 ↔ s ∈ acc.1.map PythonProcess.port

theorem tagWith_port (src : Source) (p : PythonProcess) :
    (tagWith src p).port = p.port := rfl

theorem tagWith_source (src : Source) (p : PythonProcess) :
    (tagWith src p).source = some src := rfl

/-- The merge fold only appends: the result extends the accumulator with
entries tagged by the fold's provenance whose ports were all unseen. -/
theorem mergeFold_shape (src : Source) :
    ∀ (l : List PythonProcess) (acc : List PythonProcess × List String),
    ∃ new, (l.foldl (mergeStep src) acc).1 = acc.1 ++ new ∧
      (∀ x ∈ new, x.source = some src) ∧ (∀ x ∈ new, x.port ∉ acc.2) := by
  intro l
  induction l with
  | nil => intro acc; exact ⟨[], by simp⟩
  | cons p t ih =>
    intro acc
    simp only [List.foldl_cons]
    by_cases hmem : p.port ∈ acc.2
    · have hstep : mergeStep src acc p = acc := by
        simp [mergeStep, hmem]
      rw [hstep]
      exact ih acc
    · have hstep : mergeStep src acc p =
          (acc.1 ++ [tagWith src p], p.port :: acc.2) := by
        simp [mergeStep, hmem]
      rw [hstep]
      obtain ⟨new, heq, hsrc, hport⟩ :=
        ih (acc.1 ++ [tagWith src p], p.port :: acc.2)
      refine ⟨tagWith src p :: new, ?_, ?_, ?_⟩
      · simpa [List.append_assoc] using heq
      · intro x hx
        rcases List.mem_cons.mp hx with h | h
        · subst h; rfl
        · exact hsrc x h
      · intro x hx
        rcases List.mem_cons.mp hx with h | h
        · subst h; simpa [tagWith_port] using hmem
        · intro hc
          exact hport x h (List.mem_cons_of_mem _ hc)

/-- The merge fold's seen-port set only grows, and afterwards contains the
port of every folded-in process. -/
theorem mergeFold_seen (src : Source) :
    ∀ (l : List PythonProcess) (acc : List PythonProcess × List String),
    (∀ s, s ∈ acc.2 → s ∈ (l.foldl (mergeStep src) acc).2) ∧
      (∀ p ∈ l, p.port ∈ (l.foldl (mergeStep src) acc).2) := by
  intro l
  induction l with
  | nil => intro acc; exact ⟨fun s hs => hs, by simp⟩
  | cons p t ih =>
    intro acc
    simp only [List.foldl_cons]
    have hsub : ∀ s, s ∈ acc.2 → s ∈ (mergeStep src acc p).2 := by
      intro s hs
      by_cases hmem : p.port ∈ acc.2 <;> simp [mergeStep, hmem, hs]
    have hself : p.port ∈ (mergeStep src acc p).2 := by
      by_cases hmem : p.port ∈ acc.2 <;> simp [mergeStep, hmem]
    refine ⟨fun s hs => (ih (mergeStep src acc p)).1 s (hsub s hs), ?_⟩
    intro q hq
    rcases List.mem_cons.mp hq with h | h
    · rw [h]
      exact (ih (mergeStep src acc p)).1 p.port hself
    · exact (ih (mergeStep src acc p)).2 q h

/-- The merge fold preserves the dedup invariant. -/
theorem mergeFold_inv (src : Source) :
    ∀ (l : List PythonProcess) (acc : List PythonProcess × List String),
    MergeInv acc → MergeInv (l.foldl (mergeStep src) acc) := by
  intro l
  induction l with
  | nil => intro acc h; exact h
  | cons p t ih =>
    intro acc h
    simp only [List.foldl_cons]
    refine ih (mergeStep src acc p) ?_
    by_cases hmem : p.port ∈ acc.2
    · simpa [mergeStep, hmem] using h
    · have hnot : p.port ∉ acc.1.map PythonProcess.port :=
        fun hc => hmem ((h.2 p.port).mpr hc)
      constructor
      · simp only [mergeStep, if_neg hmem, List.map_append]
        rw [List.nodup_append]
        refine ⟨h.1, by simp [tagWith_port], ?_⟩
        intro s hs
        simp only [List.map_cons, List.map_nil, tagWith_port,
          List.mem_singleton]
        intro hc
        subst hc
        exact hnot hs
      · intro s
        simp only [mergeStep, if_neg hmem, List.map_append, List.mem_append,
          List.mem_cons, List.map_cons, List.map_nil, tagWith_port,
          List.mem_singleton, List.not_mem_nil, or_false]
        rw [h.2 s]
        tauto

/-! ## Helper lemmas about the attach loop and the probe -/

/-- When the head process is new, not connecting, its lock is free, no
session is active and its launch succeeds, the loop dispatches exactly the
head port and stops. -/
theorem attachLoop_first_success (env : TickEnv) (att conn : List String)
    (p0 : PythonProcess) (rest : List PythonProcess)
    (hhost : env.hostSessionActive = false)
    (ha : p0.port ∉ att) (hc : p0.port ∉ conn)
    (hlock : env.lockFree p0.port = true)
    (hlaunch : env.launch p0.port = LaunchOutcome.success) :
    attachLoop false env att conn (p0 :: rest) =
      ⟨p0.port :: att, setErase p0.port (setInsert p0.port conn),
        [p0.port], .attachedStop⟩ := by
  simp [attachLoop, silentAttach, ha, hc, hhost, hlock, hlaunch]

/-- The ports dispatched by the loop are an order-preserving selection of
the input processes' ports. -/
theorem attachLoop_dispatch_sublist (dsa : Bool) (env : TickEnv) :
    ∀ (l : List PythonProcess) (att conn : List String),
      (attachLoop dsa env att conn l).dispatched.Sublist
        (l.map PythonProcess.port) := by
  intro l
  induction l with
  | nil => intro att conn; simp [attachLoop]
  | cons p t ih =>
    intro att conn
    by_cases h1 : p.port ∈ att
    · simp only [attachLoop, if_pos h1, List.map_cons]
      exact (ih att conn).cons _
    · by_cases h2 : p.port ∈ conn
      · simp only [attachLoop, if_neg h1, if_pos h2, List.map_cons]
        exact (ih att conn).cons _
      · by_cases h3 : (dsa || env.hostSessionActive) = true
        · simp only [attachLoop, if_neg h1, if_neg h2, if_pos h3,
            List.map_cons]
          exact List.nil_sublist _
        · by_cases h4 : (silentAttach
              ⟨env.lockFree p.port, dsa || env.hostSessionActive,
                env.launch p.port⟩ p.port conn).success = true
          · simp only [attachLoop, if_neg h1, if_neg h2, if_neg h3, if_pos h4,
              List.map_cons]
            exact (List.nil_sublist _).cons₂ _
          · simp only [attachLoop, if_neg h1, if_neg h2, if_neg h3, if_neg h4,
              List.map_cons]
            exact (ih att _).cons₂ _

/-- A candidate produced by `parseLsofLine` carries the probed port. -/
theorem parseLsofLine_port (cu line port : String) (c : PythonProcess)
    (h : parseLsofLine cu line port = some c) : c.port = port := by
  simp only [parseLsofLine] at h
  split at h
  · rw [← Option.some.inj h]
  · exact Option.noConfusion h

/-- A candidate produced by the listening-line loop carries the probed
port. -/
theorem firstListenLine_port (cu port : String) :
    ∀ (lines : List String) (c : PythonProcess),
      firstListenLine cu port lines = some c → c.port = port := by
  intro lines
  induction lines with
  | nil => intro c h; exact Option.noConfusion h
  | cons l rest ih =>
    intro c h
    simp only [firstListenLine] at h
    split at h
    · split at h
      next p hp => exact parseLsofLine_port cu l port c (hp ▸ h)
      next hp => exact ih c h
    · exact ih c h

/-! ## Claim theorems -/

/-- Claim C1: for every discovery cycle, the merged candidate list returned
by `findPythonProcesses` contains at most one entry per distinct port
value, and any merged entry whose port was also reported by the scanner is
the scanner-sourced one (scanner priority, first-seen-wins). -/
theorem merged_dedup_scanner_priority (psProcs lsofProcs : List PythonProcess) :
    ((mergeProcesses psProcs lsofProcs).map PythonProcess.port).Nodup ∧
    ∀ q ∈ mergeProcesses psProcs lsofProcs,
      q.port ∈ psProcs.map PythonProcess.port → q.source = some Source.ps := by
  have h0 : MergeInv ([], []) := ⟨by simp, by intro s; simp⟩
  have h1 := mergeFold_inv .ps psProcs ([], []) h0
  have h2 := mergeFold_inv .lsof lsofProcs _ h1
  constructor
  · exact h2.1
  · intro q hq hport
    obtain ⟨new2, heq2, hsrc2, hnot2⟩ :=
      mergeFold_shape .lsof lsofProcs (psProcs.foldl (mergeStep .ps) ([], []))
    obtain ⟨new1, heq1, hsrc1, _⟩ := mergeFold_shape .ps psProcs ([], [])
    have hq' : q ∈ (psProcs.foldl (mergeStep .ps) ([], [])).1 ++ new2 := by
      simp only [mergeProcesses] at hq
      rwa [heq2] at hq
    rcases List.mem_append.mp hq' with h | h
    · rw [heq1] at h
      simp only [List.nil_append] at h
      exact hsrc1 q h
    · obtain ⟨p, hp, hpq⟩ := List.mem_map.mp hport
      have hseen : p.port ∈ (psProcs.foldl (mergeStep .ps) ([], [])).2 :=
        (mergeFold_seen .ps psProcs ([], [])).2 p hp
      rw [hpq] at hseen
      exact absurd hseen (hnot2 q h)

/-- Witness for C1: a concrete cycle where the scanner and the probe both
report port 5678 keeps the scanner-sourced entry. -/
theorem merged_dedup_scanner_priority_witness :
    tagWith .ps pScan5678 ∈ mergeProcesses [pScan5678] [pProbe5678] ∧
    (tagWith .ps pScan5678).source = some Source.ps := by
  refine ⟨by decide, ?_⟩
  exact (merged_dedup_scanner_priority [pScan5678] [pProbe5678]).2
    (tagWith .ps pScan5678) (by decide) (by decide)

/-- Claim C2: in a tick where all discovered ports are new, unlocked and
current-user-owned and the first launch succeeds, exactly one attach
attempt is dispatched — for the first port in discovery order — the engine
stops after that success, and no remaining port gets attached this tick. -/
theorem tick_dispatches_single_attach (st : EngineState) (env : TickEnv)
    (p0 : PythonProcess) (rest : List PythonProcess)
    (hdsa : st.debugSessionActive = false)
    (hhost : env.hostSessionActive = false)
    (hdisc : env.discovered = p0 :: rest)
    (_hN : 2 ≤ env.discovered.length)
    (hcu : ∀ p ∈ env.discovered, p.isCurrentUser = true)
    (hnewA : ∀ p ∈ env.discovered, p.port ∉ st.attachedPorts)
    (hnewC : ∀ p ∈ env.discovered, p.port ∉ st.connectingPorts)
    (hlock : ∀ p ∈ env.discovered, env.lockFree p.port = true)
    (hlaunch : env.launch p0.port = LaunchOutcome.success) :
    (tryAutoAttach st env).dispatched = [p0.port] ∧
    (tryAutoAttach st env).discoveryCalls = 1 ∧
    (tryAutoAttach st env).isAutoAttaching = false ∧
    ∀ p ∈ rest, p.port ∉ (tryAutoAttach st env).attachedPorts := by
  have hp0 : p0 ∈ env.discovered := by
    rw [hdisc]; exact List.mem_cons_self _ _
  have hprocs : (if env.hideOthers then
      env.discovered.filter (fun p => p.isCurrentUser) else env.discovered)
      = p0 :: rest := by
    by_cases hh : env.hideOthers = true
    · rw [if_pos hh, List.filter_eq_self.mpr hcu, hdisc]
    · rw [if_neg hh, hdisc]
  have hA : p0.port ∉ st.attachedPorts.filter
      (fun q => q ∈ (p0 :: rest).map (fun p => p.port)) := by
    intro hmem
    exact hnewA p0 hp0 (List.mem_of_mem_filter hmem)
  have hloop := attachLoop_first_success env
    (st.attachedPorts.filter (fun q => q ∈ (p0 :: rest).map (fun p => p.port)))
    st.connectingPorts p0 rest hhost hA (hnewC p0 hp0) (hlock p0 hp0) hlaunch
  have hres : tryAutoAttach st env = ⟨[], [], false, 1, [p0.port]⟩ := by
    simp only [tryAutoAttach, hdsa, hhost, Bool.or_self, Bool.false_eq_true,
      if_false, hprocs, hloop]
  rw [hres]
  refine ⟨rfl, rfl, rfl, ?_⟩
  intro p _
  simp

/-- Witness for C2: two fresh current-user ports 5678 and 5679, free locks,
launches succeeding — exactly one attach is dispatched, for 5678. -/
theorem tick_dispatches_single_attach_witness :
    (tryAutoAttach tickStateW tickEnvW).dispatched = ["5678"] ∧
    (tryAutoAttach tickStateW tickEnvW).discoveryCalls = 1 ∧
    (tryAutoAttach tickStateW tickEnvW).isAutoAttaching = false ∧
    ∀ p ∈ [pTick5679], p.port ∉ (tryAutoAttach tickStateW tickEnvW).attachedPorts :=
  tick_dispatches_single_attach tickStateW tickEnvW pTick5678 [pTick5679]
    rfl rfl rfl (by decide) (by decide) (by decide) (by decide)
    (fun p _ => rfl) rfl

/-- Claim C3: while `debugSessionActive` is true, an auto-attach timer tick
is skipped entirely: neither the timer callback nor `tryAutoAttach` makes
any discovery call. -/
theorem session_gating_no_discovery (st : EngineState) (env : TickEnv)
    (h : st.debugSessionActive = true) :
    (autoAttachTimerTick st env).discoveryCalls = 0 ∧
    (tryAutoAttach st env).discoveryCalls = 0 := by
  constructor
  · simp [autoAttachTimerTick, h]
  · simp [tryAutoAttach, h]

/-- Witness for C3 at a concrete gated engine state. -/
theorem session_gating_no_discovery_witness :
    (autoAttachTimerTick gatedStateW gatedEnvW).discoveryCalls = 0 ∧
    (tryAutoAttach gatedStateW gatedEnvW).discoveryCalls = 0 :=
  session_gating_no_discovery gatedStateW gatedEnvW rfl

/-- Claim C4 counterexample: on POSIX the scanner line
`alice 4821 python -m debugpy --listen 5678 app.py` yields NO candidate,
because `parseUnixProcess` extracts a port only from a `--port <digits>`
flag and this line has none. -/
theorem unix_listen_line_yields_no_candidate :
    parseUnixProcess ("alice") []
        "alice 4821 python -m debugpy --listen 5678 app.py" = (none, []) ∧
    psScan ("alice") false
        ⟨false, "alice 4821 python -m debugpy --listen 5678 app.py"⟩ = [] :=
  ⟨by decide, by decide⟩

/-- Claim C4 (amended): on POSIX, parsing the scanner output line
`alice 4821 python -m debugpy --port 5678 app.py` yields exactly one
candidate with pid 4821, port 5678, owner alice, and the merge tags it with
scanner provenance; the `--listen` form of the line is discarded. -/
theorem unix_port_line_yields_candidate :
    psScan ("alice") false
        ⟨false, "alice 4821 python -m debugpy --port 5678 app.py"⟩ =
      [{ pid := "4821", port := "5678", user := "alice",
         isCurrentUser := true }] ∧
    mergeProcesses
        (psScan ("alice") false
          ⟨false, "alice 4821 python -m debugpy --port 5678 app.py"⟩) [] =
      [{ pid := "4821", port := "5678", user := "alice", isCurrentUser := true,
         source := some Source.ps }] :=
  ⟨by decide, by decide⟩

/-- Claim C5: the scanner resolves to the empty list on every failure of
the listing command (error flag set or empty/whitespace output), and a
failing strategy never suppresses the other: every port reported by either
strategy appears in the merged list. -/
theorem scan_never_throws_and_isolated (currentUser : String) (isWin : Bool)
    (res : ExecResult) (psProcs lsofProcs : List PythonProcess) :
    (res.err = true ∨ strTrim res.output = "" →
      psScan currentUser isWin res = []) ∧
    (∀ p ∈ psProcs,
      p.port ∈ (mergeProcesses psProcs lsofProcs).map PythonProcess.port) ∧
    (∀ p ∈ lsofProcs,
      p.port ∈ (mergeProcesses psProcs lsofProcs).map PythonProcess.port) := by
  have h0 : MergeInv ([], []) := ⟨by simp, by intro s; simp⟩
  have h1 := mergeFold_inv .ps psProcs ([], []) h0
  have h2 := mergeFold_inv .lsof lsofProcs _ h1
  refine ⟨?_, ?_, ?_⟩
  · intro h
    simp only [psScan, if_pos h]
  · intro p hp
    have hseen1 : p.port ∈ (psProcs.foldl (mergeStep .ps) ([], [])).2 :=
      (mergeFold_seen .ps psProcs ([], [])).2 p hp
    have hseen2 := (mergeFold_seen .lsof lsofProcs _).1 p.port hseen1
    have := (h2.2 p.port).mp hseen2
    simpa [mergeProcesses] using this
  · intro p hp
    have hseen2 := (mergeFold_seen .lsof lsofProcs
      (psProcs.foldl (mergeStep .ps) ([], []))).2 p hp
    have := (h2.2 p.port).mp hseen2
    simpa [mergeProcesses] using this

/-- Witness for C5: a failed listing command yields no candidates, and a
probe result survives a cycle where the scanner found nothing. -/
theorem scan_never_throws_and_isolated_witness :
    psScan ("alice") false ⟨true, "boom"⟩ = [] ∧
    pProbe5679.port ∈ (mergeProcesses [] [pProbe5679]).map PythonProcess.port := by
  constructor
  · exact (scan_never_throws_and_isolated ("alice") false ⟨true, "boom"⟩
      [] []).1 (Or.inl rfl)
  · exact (scan_never_throws_and_isolated ("alice") false ⟨true, "boom"⟩
      [] [pProbe5679]).2.2 pProbe5679 (by decide)

/-- Claim C6: for probe input port 9000, an inspection output whose first
listening row has fields `docker-proxy 3310 root ...` yields the candidate
`{pid 3310, port 9000, owner root}` with probe provenance after the merge;
non-listening rows are skipped, the first listening row wins, and every
probe candidate carries the hinted port rather than one parsed from the
output. -/
theorem probe_hinted_port_first_listen :
    checkPortWithLsof ("alice") ("9000") ⟨false, lsofOutputW⟩ =
      some probeCandidateW ∧
    mergeProcesses [] [probeCandidateW] = [tagWith .lsof probeCandidateW] ∧
    ∀ (cu port : String) (res : ExecResult) (c : PythonProcess),
      checkPortWithLsof cu port res = some c → c.port = port := by
  refine ⟨by decide, by decide, ?_⟩
  intro cu port res c h
  simp only [checkPortWithLsof] at h
  split at h
  · exact Option.noConfusion h
  · exact firstListenLine_port cu port _ c h

/-- Witness for C6: the concrete docker-proxy candidate carries the hinted
port 9000. -/
theorem probe_hinted_port_first_listen_witness :
    probeCandidateW.port = "9000" :=
  probe_hinted_port_first_listen.2.2 ("alice") ("9000") ⟨false, lsofOutputW⟩
    probeCandidateW (by decide)

/-- Claim C7: Windows port extraction applies exactly four matchers in a
fixed order with first-match-wins — `--port <digits>`, `--listen <digits>`,
`:<4-or-5 digits>`, then a bare 4-digit number starting with 5..9 — and a
command line matching none yields no candidate from
`parseWindowsProcess`. -/
theorem extractPort_layered_order (cl currentUser line : String)
    (seen : List String) :
    (∀ p, matchFlagPort ("--port".data) cl.data = some p →
      extractPort cl = some p) ∧
    (matchFlagPort ("--port".data) cl.data = none →
      ∀ p, matchFlagPort ("--listen".data) cl.data = some p →
        extractPort cl = some p) ∧
    (matchFlagPort ("--port".data) cl.data = none →
      matchFlagPort ("--listen".data) cl.data = none →
      ∀ p, matchColonPort cl.data = some p → extractPort cl = some p) ∧
    (matchFlagPort ("--port".data) cl.data = none →
      matchFlagPort ("--listen".data) cl.data = none →
      matchColonPort cl.data = none → extractPort cl = matchBare4 cl.data) ∧
    (extractPort ((splitOnChar ',' line).getD 2 "") = none →
      parseWindowsProcess currentUser seen line = (none, seen)) ∧
    extractPort ("run.py --listen 17000 --port 5050 :54321 6001") =
      some ("5050") ∧
    extractPort ("run.py --listen 17000 :54321 6001") = some ("17000") ∧
    extractPort ("run.py :54321 6001") = some ("54321") ∧
    extractPort ("run.py 6001") = some ("6001") ∧
    extractPort ("run.py sixthousand") = none := by
  refine ⟨?_, ?_, ?_, ?_, ?_, by decide, by decide, by decide, by decide,
    by decide⟩
  · intro p hp
    simp only [extractPort, hp]
  · intro h1 p hp
    simp only [extractPort, h1, hp]
  · intro h1 h2 p hp
    simp only [extractPort, h1, h2, hp]
  · intro h1 h2 h3
    simp only [extractPort, h1, h2, h3]
  · intro h
    simp only [parseWindowsProcess]
    split
    · rw [h]
    · rfl

/-- Witness for C7: a Windows CSV row whose command line matches none of
the four patterns yields no candidate. -/
theorem extractPort_layered_order_witness :
    parseWindowsProcess ("user") [] ("alice,123,debugpy run") = (none, []) :=
  (extractPort_layered_order ("x") ("user") ("alice,123,debugpy run") []).2.2.2.2.1
    (by decide)

/-- Claim C8: a lock entry younger than the staleness threshold is never
reclaimed (`tryAcquire` returns false and leaves the state unchanged),
while an entry older than the threshold with no recent activity heartbeat
is reclaimed (`tryAcquire` returns true and replaces the entry with a
fresh one). -/
theorem lock_staleness_reclaim (now : Nat) (port : String) (st : LockState)
    (created : Nat) (hmem : lookupCreated port st.entries = some created) :
    (now - created ≤ lockStaleThresholdMs →
      tryAcquirePortLock now port st = (false, st)) ∧
    (lockStaleThresholdMs < now - created →
      activityRecencyMs < now - st.lastActivity →
      (tryAcquirePortLock now port st).1 = true ∧
      lookupCreated port (tryAcquirePortLock now port st).2.entries =
        some now) := by
  constructor
  · intro h
    have hstale : lockIsStale now created st.lastActivity = false := by
      simp [lockIsStale, Nat.not_lt.mpr h]
    simp [tryAcquirePortLock, hmem, hstale]
  · intro h1 h2
    have hstale : lockIsStale now created st.lastActivity = true := by
      simp [lockIsStale, h1, h2]
    constructor
    · simp [tryAcquirePortLock, hmem, hstale]
    · simp [tryAcquirePortLock, hmem, hstale, lookupCreated]

/-- Witness for C8: at time 100000 ms, a 5-second-old entry with a recent
heartbeat is refused; a 90-second-old entry with no heartbeat for 90
seconds is reclaimed and replaced. -/
theorem lock_staleness_reclaim_witness :
    tryAcquirePortLock 100000 "5678" freshLockStateW =
      (false, freshLockStateW) ∧
    (tryAcquirePortLock 100000 "5678" staleLockStateW).1 = true ∧
    lookupCreated ("5678")
      (tryAcquirePortLock 100000 "5678" staleLockStateW).2.entries =
      some 100000 := by
  refine ⟨?_, ?_⟩
  · exact (lock_staleness_reclaim 100000 "5678" freshLockStateW 95000
      (by decide)).1 (by decide)
  · exact (lock_staleness_reclaim 100000 "5678" staleLockStateW 10000
      (by decide)).2 (by decide) (by decide)

/-- Claim C9: the merged list is a block of scanner-sourced entries
followed by a block of probe-sourced entries, and the auto-attach loop
dispatches ports as an order-preserving selection of the discovery list,
so scanner-discovered ports are always considered before probe-discovered
ones. -/
theorem scanner_entries_precede_probe_entries
    (psProcs lsofProcs : List PythonProcess) :
    (∃ a b, mergeProcesses psProcs lsofProcs = a ++ b ∧
      (∀ x ∈ a, x.source = some Source.ps) ∧
      (∀ x ∈ b, x.source = some Source.lsof)) ∧
    ∀ (st : EngineState) (env : TickEnv),
      (tryAutoAttach st env).dispatched.Sublist
        (env.discovered.map PythonProcess.port) := by
  constructor
  · obtain ⟨new1, heq1, hsrc1, _⟩ := mergeFold_shape .ps psProcs ([], [])
    obtain ⟨new2, heq2, hsrc2, _⟩ :=
      mergeFold_shape .lsof lsofProcs (psProcs.foldl (mergeStep .ps) ([], []))
    refine ⟨(psProcs.foldl (mergeStep .ps) ([], [])).1, new2, ?_, ?_, hsrc2⟩
    · simpa [mergeProcesses] using heq2
    · intro x hx
      rw [heq1] at hx
      simp only [List.nil_append] at hx
      exact hsrc1 x hx
  · intro st env
    by_cases hg : (st.debugSessionActive || env.hostSessionActive) = true
    · simp only [tryAutoAttach, if_pos hg]
      exact List.nil_sublist _
    · have hmap : ((if env.hideOthers then
          env.discovered.filter (fun p => p.isCurrentUser)
          else env.discovered).map PythonProcess.port).Sublist
          (env.discovered.map PythonProcess.port) := by
        by_cases hh : env.hideOthers = true
        · simp only [if_pos hh]
          exact (List.filter_sublist _).map _
        · simp only [if_neg hh]
          exact List.Sublist.refl _
      have hloop := attachLoop_dispatch_sublist st.debugSessionActive env
        (if env.hideOthers then
          env.discovered.filter (fun p => p.isCurrentUser)
          else env.discovered)
        (st.attachedPorts.filter (fun q => q ∈ (if env.hideOthers then
          env.discovered.filter (fun p => p.isCurrentUser)
          else env.discovered).map (fun p => p.port)))
        st.connectingPorts
      simp only [tryAutoAttach, if_neg hg]
      split
      · exact hloop.trans hmap
      · exact hloop.trans hmap

/-- Witness for C9: on a concrete tick the dispatched ports are an
order-preserving selection of the discovered ports. -/
theorem scanner_entries_precede_probe_entries_witness :
    (tryAutoAttach ⟨[], [], true, false⟩
      ⟨false, [pScan5678], false, fun _ => true,
        fun _ => .failed⟩).dispatched.Sublist
      ([pScan5678].map PythonProcess.port) :=
  (scanner_entries_precede_probe_entries [] []).2 ⟨[], [], true, false⟩
    ⟨false, [pScan5678], false, fun _ => true, fun _ => .failed⟩

/-- Claim C10: `silentAttach` restores the engine's bookkeeping: every path
removes the port from `connectingPorts` before resolving; on every failing
path the lock is not held at resolution (released or never acquired); on
the success path the lock is still held with its release deferred to a
grace delay. -/
theorem silentAttach_bookkeeping (env : AttachEnv) (port : String)
    (connecting : List String) :
    port ∉ (silentAttach env port connecting).connectingPorts ∧
    (silentAttach env port connecting).connectingPorts =
      setErase port (setInsert port connecting) ∧
    (silentAttach env port connecting).lockHeld =
      (silentAttach env port connecting).success ∧
    (silentAttach env port connecting).graceReleaseScheduled =
      (silentAttach env port connecting).success := by
  have hnot : port ∉ setErase port (setInsert port connecting) := by
    simp [setErase]
  obtain ⟨lk, sa, lo⟩ := env
  cases lk <;> cases sa <;> cases lo <;>
    exact ⟨by simpa [silentAttach] using hnot, by simp [silentAttach],
      by simp [silentAttach], by simp [silentAttach]⟩

/-- Witness for C10: a concrete successful silent attach run leaves the
port out of the connecting set and keeps the lock with a deferred
release. -/
theorem silentAttach_bookkeeping_witness :
    (("5678") ∉
      (silentAttach ⟨true, false, .success⟩ ("5678") []).connectingPorts) ∧
    (silentAttach ⟨true, false, .success⟩ ("5678") []).lockHeld =
      (silentAttach ⟨true, false, .success⟩ ("5678") []).success :=
  ⟨(silentAttach_bookkeeping ⟨true, false, .success⟩ ("5678") []).1,
   (silentAttach_bookkeeping ⟨true, false, .success⟩ ("5678") []).2.2.1⟩

end DebugpyAttacher
